import Mathlib

/-!
Verification of the NapkinVision artifact-lifecycle engine against its
natural-language specification.  The TypeScript source is shallowly embedded:
JS strings become `String` (or `List Char` where character-level regex
behaviour matters), JS arrays become `List`, optional values become `Option`,
thrown exceptions become `Except`, and the React state of `App.tsx` becomes an
explicit `AppState` record threaded through the event handlers.
-/

/- ========================================================================
   Gemini service layer (src/services/gemini.ts, src/unnamed/part_006)
   ======================================================================== -/

/-- Error thrown by the Gemini SDK; only its `status` field is inspected by
the retry wrapper.  `none` models a JS error without a numeric status. -/
structure ApiError where
  status : Option Int
deriving DecidableEq, Repr

/-- The transiency test of `withRetry`:
`error?.status === 429 || error?.status >= 500`.
In JS, `undefined >= 500` is `false`, hence the `none` branch. -/
def isTransient (e : ApiError) : Bool :=
  match e.status with
  | some n => n == 429 || n ≥ 500
  | none => false

/-- `withRetry` from the service module.  The fallible unit of work `fn` is
modelled as a map from the attempt index (0-based) to that call's outcome.
The result carries the final outcome together with the list of backoff delays
actually awaited (in order), so the retry schedule is observable.

```
async function withRetry(fn, retries = MAX_RETRIES, delay = INITIAL_BACKOFF) {
  try { return await fn(); } catch (error) {
    if (retries > 0 && (error?.status === 429 || error?.status >= 500)) {
      await new Promise(resolve => setTimeout(resolve, delay));
      return withRetry(fn, retries - 1, delay * 2);
    }
    throw error;
  }
}
``` -/
def withRetry (fn : Nat → Except ApiError α) (retries : Nat) (delay : Nat)
    (k : Nat) : Except ApiError α × List Nat :=
  match fn k with
  | Except.ok a => (Except.ok a, [])
  | Except.error e =>
    match retries with
    | 0 => (Except.error e, [])
    | r + 1 =>
      if isTransient e then
        let t := withRetry fn r (delay * 2) (k + 1)
        (t.1, delay :: t.2)
      else
        (Except.error e, [])

/-- `MAX_RETRIES` in the source. -/
def MAX_RETRIES : Nat := 3

/-- `INITIAL_BACKOFF` in the source (milliseconds). -/
def INITIAL_BACKOFF : Nat := 1000

/-- A call through the wrapper with the source's default arguments. -/
def withRetryCall (fn : Nat → Except ApiError α) : Except ApiError α × List Nat :=
  withRetry fn MAX_RETRIES INITIAL_BACKOFF 0

/-- An outcome on which `withRetry` does not retry: a success, or an error
whose status is neither 429 nor ≥ 500. -/
def retryable (r : Except ApiError α) : Bool :=
  match r with
  | Except.ok _ => false
  | Except.error e => isTransient e

/-- The index of the attempt at which `withRetryCall` stops: the first
attempt whose outcome is not retryable, capped at `MAX_RETRIES` (the last
attempt's outcome is returned no matter what). -/
def stopIndex (fn : Nat → Except ApiError α) : Nat :=
  if ¬ retryable (fn 0) then 0
  else if ¬ retryable (fn 1) then 1
  else if ¬ retryable (fn 2) then 2
  else 3

/- ------------------------------------------------------------------------
   cleanHtmlOutput.  Character-level regex behaviour matters here, so JS
   strings are modelled as `List Char`.

   function cleanHtmlOutput(text) {
     if (!text) return "<!-- Failed to generate content -->";
     return text.replace(/^```html\s*/, '')
                .replace(/^```\s*/, '')
                .replace(/```$/, '');
   }
   ------------------------------------------------------------------------ -/

/-- The whitespace class of the JS regex `\s`. -/
def isJsSpace (c : Char) : Bool :=
  c ∈ ([' ', '\t', '\n', '\r', '\x0b', '\x0c',
        Char.ofNat 0xa0, Char.ofNat 0x1680,
        Char.ofNat 0x2000, Char.ofNat 0x2001, Char.ofNat 0x2002,
        Char.ofNat 0x2003, Char.ofNat 0x2004, Char.ofNat 0x2005,
        Char.ofNat 0x2006, Char.ofNat 0x2007, Char.ofNat 0x2008,
        Char.ofNat 0x2009, Char.ofNat 0x200a, Char.ofNat 0x2028,
        Char.ofNat 0x2029, Char.ofNat 0x202f, Char.ofNat 0x205f,
        Char.ofNat 0x3000, Char.ofNat 0xfeff] : List Char)

/-- The bare fenced-code marker. -/
def FENCE : List Char := "```".toList

/-- The language-tagged fenced-code marker. -/
def FENCE_HTML : List Char := "```html".toList

/-- `text.replace(/^PAT\s*/, '')`: strip `pat` and the following whitespace
run when `pat` is a prefix, otherwise leave the string unchanged. -/
def stripLeadMarker (pat : List Char) (s : List Char) : List Char :=
  if pat.isPrefixOf s then (s.drop pat.length).dropWhile isJsSpace else s

/-- `text.replace(/```$/, '')`: strip a trailing bare marker if present. -/
def stripTrailMarker (s : List Char) : List Char :=
  if FENCE.isSuffixOf s then s.take (s.length - FENCE.length) else s

/-- The fallback comment returned for a falsy (empty) input. -/
def FAIL_COMMENT : List Char := "<!-- Failed to generate content -->".toList

/-- `cleanHtmlOutput` from the service module. -/
def cleanHtmlOutput (s : List Char) : List Char :=
  if s = [] then FAIL_COMMENT
  else stripTrailMarker (stripLeadMarker FENCE (stripLeadMarker FENCE_HTML s))

/- ------------------------------------------------------------------------
   bringToLife request construction (instruction text only).
   ------------------------------------------------------------------------ -/

/-- JS truthiness of an optional string argument: `undefined` and `""` are
falsy, every other string is truthy. -/
def truthy : Option String → Bool
  | none => false
  | some s => s ≠ ""

/-- The fixed analysis directive used when an image payload is present. -/
def ANALYSIS_DIRECTIVE : String :=
  "Analyze this image/document. Build a fully interactive web app. IMPORTANT: Recreate visuals using CSS, SVGs, or Emojis."

/-- The generic demo directive used when the free-text prompt is empty. -/
def DEMO_DIRECTIVE : String :=
  "Create a demo app that shows off your capabilities."

/-- The design-constraint sentence appended for a non-Default style preset. -/
def designConstraint (stylePreset : String) : String :=
  "\n\nDESIGN CONSTRAINT: Visual style: \"" ++ stylePreset ++ "\"."

/-- The technical-constraint section appended for a non-empty custom CSS. -/
def cssConstraint (customCss : String) : String :=
  "\n\nCUSTOM CSS REQ:\n" ++ customCss

/-- The `finalPrompt` computed by `bringToLife`, translated statement by
statement from the source (a mutable string successively extended):

```
let finalPrompt = fileBase64 ? "Analyze this image/document. ..."
                             : prompt || "Create a demo app ...";
if (stylePreset && stylePreset !== 'Default')
  finalPrompt += `\n\nDESIGN CONSTRAINT: ...`;
if (customCss)
  finalPrompt += `\n\nCUSTOM CSS REQ:\n...`;
``` -/
def bringToLifePrompt (prompt : String) (fileBase64 : Option String)
    (stylePreset : Option String) (customCss : Option String) : String :=
  let finalPrompt :=
    if truthy fileBase64 then ANALYSIS_DIRECTIVE
    else if prompt ≠ "" then prompt else DEMO_DIRECTIVE
  let finalPrompt :=
    if truthy stylePreset && stylePreset ≠ some "Default" then
      finalPrompt ++ designConstraint (stylePreset.getD "")
    else finalPrompt
  let finalPrompt :=
    if truthy customCss then finalPrompt ++ cssConstraint (customCss.getD "")
    else finalPrompt
  finalPrompt

/-- The spec's reading of the same instruction text, assembled as three
independent pieces: a base (analysis directive when an image payload is
present, else the prompt verbatim, else the demo directive), then the design
constraint exactly when the style preset is present and not `Default`, then
the technical constraint exactly when the custom CSS is non-empty. -/
def specPrompt (prompt : String) (fileBase64 : Option String)
    (stylePreset : Option String) (customCss : Option String) : String :=
  (if truthy fileBase64 then ANALYSIS_DIRECTIVE
   else if prompt = "" then DEMO_DIRECTIVE else prompt)
  ++ (if truthy stylePreset && stylePreset ≠ some "Default" then
        designConstraint (stylePreset.getD "")
      else "")
  ++ (if truthy customCss then cssConstraint (customCss.getD "") else "")

/- ========================================================================
   App state and event handlers (src/App.tsx)
   ======================================================================== -/

/-- The `Creation` record (components/CreationHistory).  Timestamps are
modelled as naturals (milliseconds since epoch). -/
structure Creation where
  id : String
  name : String
  html : String
  originalImage : Option String
  timestamp : Nat
deriving DecidableEq, Repr

/-- The React state of `App`: the active creation, the most-recent-first
history list, and the per-active-creation undo/redo stacks.  JS pushes onto
the *end* of the stack arrays (`[...prev, x]`), so the top of each stack is
the last list element. -/
structure AppState where
  activeCreation : Option Creation
  history : List Creation
  undoStack : List String
  redoStack : List String
deriving DecidableEq, Repr

/-- The dependency of the stack-clearing effect: `activeCreation?.id`. -/
def activeId (s : AppState) : Option String :=
  s.activeCreation.map (fun c => c.id)

/-- The body of the active creation, if any. -/
def activeHtml (s : AppState) : Option String :=
  s.activeCreation.map (fun c => c.html)

/-- The `useEffect` of `App.tsx` lines 69-72: after a state transition from
`prev` to `next`, if `activeCreation?.id` changed then both stacks are
cleared.  React runs this effect after every render whose dependency value
differs from the previous render's. -/
def runActivationEffect (prev next : AppState) : AppState :=
  if activeId next = activeId prev then next
  else { next with undoStack := [], redoStack := [] }

/-- `updateActiveCreationHtml`: no-op when nothing is active; otherwise
replace the active creation's body and update its history entry by id. -/
def updateActiveCreationHtml (newHtml : String) (s : AppState) : AppState :=
  match s.activeCreation with
  | none => s
  | some ac =>
    let updatedCreation := { ac with html := newHtml }
    { s with
      activeCreation := some updatedCreation,
      history := s.history.map
        (fun item => if item.id = updatedCreation.id then updatedCreation else item) }

/-- `handleRefine`: the outcome of `await refineApp(...)` is passed in as an
`Except` (an exception, or the returned string).  On an exception the catch
block only alerts; on a falsy (empty) result nothing happens; otherwise the
pre-refinement body is pushed onto the undo stack, the redo stack is cleared,
and the body is updated. -/
def handleRefine (outcome : Except ApiError String) (s : AppState) : AppState :=
  match s.activeCreation with
  | none => s
  | some ac =>
    match outcome with
    | Except.error _ => s
    | Except.ok newHtml =>
      if newHtml = "" then s
      else
        updateActiveCreationHtml newHtml
          { s with undoStack := s.undoStack ++ [ac.html], redoStack := [] }

/-- `handleUndo`: no-op when the undo stack is empty or nothing is active;
otherwise pop the undo stack, push the current body onto the redo stack, and
apply the popped body. -/
def handleUndo (s : AppState) : AppState :=
  match s.activeCreation with
  | none => s
  | some ac =>
    match s.undoStack.getLast? with
    | none => s
    | some previousHtml =>
      updateActiveCreationHtml previousHtml
        { s with
          redoStack := s.redoStack ++ [ac.html],
          undoStack := s.undoStack.dropLast }

/-- `handleRedo`: symmetric to `handleUndo`. -/
def handleRedo (s : AppState) : AppState :=
  match s.activeCreation with
  | none => s
  | some ac =>
    match s.redoStack.getLast? with
    | none => s
    | some nextHtml =>
      updateActiveCreationHtml nextHtml
        { s with
          undoStack := s.undoStack ++ [ac.html],
          redoStack := s.redoStack.dropLast }

/-- A handler followed by the stack-clearing activation effect, which React
runs after the resulting render. -/
def step (h : AppState → AppState) (s : AppState) : AppState :=
  runActivationEffect s (h s)

/-- One app-level refinement (handler plus activation effect). -/
def refineStep (outcome : Except ApiError String) : AppState → AppState :=
  step (handleRefine outcome)

/-- One app-level undo. -/
def undoStep : AppState → AppState := step handleUndo

/-- One app-level redo. -/
def redoStep : AppState → AppState := step handleRedo

/-- `handleSelectCreation` (activating a history entry) plus the activation
effect. -/
def selectCreationStep (c : Creation) : AppState → AppState :=
  step (fun s => { s with activeCreation := some c })

/-- A sequence of successful refinements with the given result bodies. -/
def refineSeq (bodies : List String) (s : AppState) : AppState :=
  bodies.foldl (fun st b => refineStep (Except.ok b) st) s

/- ------------------------------------------------------------------------
   Persistence (App.tsx persistHistory / initHistory)
   ------------------------------------------------------------------------ -/

/-- `persistHistory`, parametrized by the capacity test of the durable slot:
`fits l` says `localStorage.setItem(KEY, JSON.stringify(l))` succeeds, and a
failed write throws a quota error.  The result records the list finally
written to the slot (if any), the arguments of the `setHistory` calls made
during eviction in execution order (the last one wins), and whether the
user-visible storage-full alert was raised.

```
const persistHistory = (newHistory) => {
  try { localStorage.setItem('gemini_app_history', JSON.stringify(newHistory)); }
  catch (e) {
    if (e.name === 'QuotaExceededError' || e.code === 22) {
      if (newHistory.length > 1) {
        const smallerHistory = newHistory.slice(0, -1);
        persistHistory(smallerHistory);
        setHistory(smallerHistory);
      } else {
        alert("Storage full. History not saved.");
      }
    }
  }
};
``` -/
def persistHistory (fits : List Creation → Bool) (l : List Creation) :
    Option (List Creation) × List (List Creation) × Bool :=
  if fits l then (some l, [], false)
  else if hlen : l.length > 1 then
    let smallerHistory := l.dropLast
    let r := persistHistory fits smallerHistory
    (r.1, r.2.1 ++ [smallerHistory], r.2.2)
  else (none, [], true)
termination_by l.length
decreasing_by simp [List.length_dropLast]; omega

/-- `initHistory`: the persisted snapshot is read once at startup.
`saved = none` models an absent slot; `some none` models a stored string on
which `JSON.parse` (or the subsequent `.map` revival) throws — the catch
block drops everything; `some (some items)` models a parsed array whose
items each either revive (`some c`) or throw during revival (`none`, e.g. a
JSON `null` entry, whose `item.timestamp` access throws).  The revival map
throws at the first bad item, so one bad item discards the whole snapshot. -/
def initHistory (saved : Option (Option (List (Option Creation)))) : List Creation :=
  match saved with
  | none => []
  | some none => []
  | some (some items) =>
    if items.all Option.isSome then items.filterMap id else []

/-- What the spec's load sentence describes: entries failing to parse are
dropped silently while the remaining entries are loaded. -/
def specLoad (items : List (Option Creation)) : List Creation :=
  items.filterMap id

/- ------------------------------------------------------------------------
   Export / import (LivePreview.handleExportJson, App.handleImportFile)
   ------------------------------------------------------------------------ -/

/-- The JSON object domain relevant to import: each field of an artifact
snapshot may be present or absent. -/
structure SnapshotJson where
  id : Option String
  name : Option String
  html : Option String
  originalImage : Option String
  timestamp : Option Nat
deriving DecidableEq, Repr

/-- `handleExportJson` serializes the whole `Creation` (`JSON.stringify`),
so every field is present in the snapshot. -/
def exportJson (c : Creation) : SnapshotJson :=
  { id := some c.id, name := some c.name, html := some c.html,
    originalImage := c.originalImage, timestamp := some c.timestamp }

/-- `handleImportFile` after the file's text is read: `parsed = none` models
a `JSON.parse` failure.  `freshId` is the `crypto.randomUUID()` drawn for a
snapshot without an id, `now` is `Date.now()`.  Returns the next state and
the alert message, if one was raised.

```
const parsed = JSON.parse(json);
if (parsed.html && parsed.name) {
  const importedCreation = { ...parsed,
    timestamp: new Date(parsed.timestamp || Date.now()),
    id: parsed.id || crypto.randomUUID() };
  setHistory(prev => prev.some(c => c.id === importedCreation.id)
                       ? prev : [importedCreation, ...prev]);
  setActiveCreation(importedCreation);
} else { alert("Invalid creation file format."); }
``` -/
def handleImportFile (parsed : Option SnapshotJson) (freshId : String) (now : Nat)
    (s : AppState) : AppState × Option String :=
  match parsed with
  | none => (s, some "Failed to import creation. The file might be corrupted.")
  | some p =>
    if truthy p.html && truthy p.name then
      let importedCreation : Creation :=
        { id := if truthy p.id then p.id.getD "" else freshId,
          name := p.name.getD "",
          html := p.html.getD "",
          originalImage := p.originalImage,
          timestamp := match p.timestamp with
                       | some t => if t = 0 then now else t
                       | none => now }
      let nextHistory :=
        if s.history.any (fun c => c.id = importedCreation.id) then s.history
        else importedCreation :: s.history
      (runActivationEffect s
        { s with history := nextHistory, activeCreation := some importedCreation },
       none)
    else (s, some "Invalid creation file format.")

/- ========================================================================
   Interaction overlay (src/components/LivePreview.tsx)
   ======================================================================== -/

/-- The three interaction modes. -/
inductive InteractionMode
  | interact
  | inspect
  | edit
deriving DecidableEq, Repr

/-- The facts about a DOM element inside the rendered document that the
handlers read: identity (`isBody` / `isRoot` mark `doc.body` and
`doc.documentElement`), attributes, text, and the resolved computed style. -/
structure DomElement where
  tagName : String
  elemId : String
  className : String
  innerText : String
  isBody : Bool
  isRoot : Bool
  color : String
  backgroundColor : String
  fontSize : String
  fontFamily : String
  padding : String
  margin : String
deriving DecidableEq, Repr

/-- The `InspectedElement` report produced in Inspect mode.  The
`computedStyles` object literal is modelled as an ordered key/value list. -/
structure InspectedElement where
  tagName : String
  elemId : String
  className : String
  text : String
  computedStyles : List (String × String)
deriving DecidableEq, Repr

/-- The context-menu request produced in Edit mode. -/
structure ContextMenuReq where
  x : Int
  y : Int
  targetDescription : String
  targetTagName : String
deriving DecidableEq, Repr

/-- What a click inside the rendered document results in. -/
inductive ClickOutcome
  | passthrough
  | inspected (r : InspectedElement)
  | editMenu (m : ContextMenuReq)
deriving DecidableEq, Repr

/-- JS `s.substring(0, n)`: the first `n` characters of `s`. -/
def jsSubstringTo (n : Nat) (s : String) : String :=
  String.mk (s.toList.take n)

/-- JS `s.replace(pat, '')` with a *string* pattern removes only the first
occurrence of `pat` (here `pat` is always non-empty). -/
def removeFirst (pat : List Char) : List Char → List Char
  | [] => []
  | c :: rest =>
    if pat.isPrefixOf (c :: rest) then (c :: rest).drop pat.length
    else c :: removeFirst pat rest

/-- JS `String.prototype.trim`. -/
def jsTrim (s : List Char) : List Char :=
  ((s.dropWhile isJsSpace).reverse.dropWhile isJsSpace).reverse

/-- `target.className.replace('gemini-inspector-hover', '').trim()` (and the
edit-mode variant with the other marker class). -/
def stripHoverClass (marker : String) (className : String) : String :=
  String.mk (jsTrim (removeFirst marker.toList className.toList))

/-- The report built by the Inspect branch of `handleClick`
(LivePreview.tsx lines 218-233). -/
def inspectReport (el : DomElement) : InspectedElement :=
  { tagName := el.tagName.toLower,
    elemId := el.elemId,
    className := stripHoverClass "gemini-inspector-hover" el.className,
    text := jsSubstringTo 50 el.innerText,
    computedStyles :=
      [("color", el.color), ("backgroundColor", el.backgroundColor),
       ("fontSize", el.fontSize), ("fontFamily", el.fontFamily),
       ("padding", el.padding), ("margin", el.margin)] }

/-- The locator string built by the Edit branch (lines 240-243). -/
def editDescription (el : DomElement) : String :=
  let description := el.tagName.toLower
  let description :=
    if el.elemId ≠ "" then description ++ "#" ++ el.elemId else description
  let stripped := stripHoverClass "gemini-edit-hover" el.className
  let description :=
    if stripped ≠ "" then
      description ++ "." ++ String.intercalate "." (stripped.splitOn " ")
    else description
  if el.innerText ≠ "" then
    description ++ " containing text \"" ++ jsSubstringTo 20 el.innerText ++ "...\""
  else description

/-- `handleClick` of the preview iframe (LivePreview.tsx lines 211-253).
In Interact mode the event passes through untouched; otherwise the native
action is suppressed and, depending on the mode, an inspection report or a
context-menu request is produced. -/
def handleClick (mode : InteractionMode) (el : DomElement)
    (iframeLeft iframeTop clientX clientY : Int) : ClickOutcome :=
  match mode with
  | InteractionMode.interact => ClickOutcome.passthrough
  | InteractionMode.inspect => ClickOutcome.inspected (inspectReport el)
  | InteractionMode.edit =>
    ClickOutcome.editMenu
      { x := iframeLeft + clientX,
        y := iframeTop + clientY,
        targetDescription := editDescription el,
        targetTagName := el.tagName.toLower }

/-- Whether `handleClick` suppresses the native action
(`preventDefault` / `stopPropagation` run in every non-Interact branch). -/
def suppressesNative (mode : InteractionMode) : Bool :=
  mode ≠ InteractionMode.interact

/-- `handleMouseOver`: the hover highlight, which *does* ignore the document
body and root element; returns the highlight class added, if any. -/
def handleMouseOver (mode : InteractionMode) (el : DomElement) : Option String :=
  match mode with
  | InteractionMode.interact => none
  | _ =>
    if el.isBody || el.isRoot then none
    else some (if mode = InteractionMode.inspect then "gemini-inspector-hover"
               else "gemini-edit-hover")

/-- The inspection report produced by a click, if any (the observable the
round-trip claims quantify over). -/
def inspectReportOf (mode : InteractionMode) (el : DomElement) : Option InspectedElement :=
  match handleClick mode el 0 0 0 0 with
  | ClickOutcome.inspected r => some r
  | _ => none


/- ========================================================================
   Helper lemmas
   ======================================================================== -/

lemma withRetry_fn_ok (fn : Nat → Except ApiError α) (r d k : Nat) (a : α)
    (h : fn k = Except.ok a) : withRetry fn r d k = (Except.ok a, []) := by
  unfold withRetry
  rw [h]

lemma withRetry_fn_error_stop (fn : Nat → Except ApiError α) (r d k : Nat) (e : ApiError)
    (h : fn k = Except.error e) (ht : isTransient e = false) :
    withRetry fn r d k = (Except.error e, []) := by
  unfold withRetry
  rw [h]
  cases r <;> simp [ht]

lemma withRetry_fn_error_zero (fn : Nat → Except ApiError α) (d k : Nat) (e : ApiError)
    (h : fn k = Except.error e) : withRetry fn 0 d k = (Except.error e, []) := by
  unfold withRetry
  rw [h]

lemma withRetry_fn_error_retry (fn : Nat → Except ApiError α) (r d k : Nat) (e : ApiError)
    (h : fn k = Except.error e) (ht : isTransient e = true) :
    withRetry fn (r + 1) d k =
      ((withRetry fn r (d * 2) (k + 1)).1, d :: (withRetry fn r (d * 2) (k + 1)).2) := by
  conv_lhs => unfold withRetry
  rw [h]
  simp [ht]

lemma withRetry_stop_of_not_retryable (fn : Nat → Except ApiError α) (r d k : Nat)
    (h : retryable (fn k) = false) : withRetry fn r d k = (fn k, []) := by
  cases hf : fn k with
  | ok a => exact withRetry_fn_ok fn r d k a hf
  | error e =>
    rw [hf] at h
    exact withRetry_fn_error_stop fn r d k e hf (by simpa [retryable] using h)

lemma withRetry_retry_of_retryable (fn : Nat → Except ApiError α) (r d k : Nat)
    (h : retryable (fn k) = true) :
    withRetry fn (r + 1) d k =
      ((withRetry fn r (d * 2) (k + 1)).1, d :: (withRetry fn r (d * 2) (k + 1)).2) := by
  cases hf : fn k with
  | ok a => rw [hf] at h; simp [retryable] at h
  | error e =>
    rw [hf] at h
    exact withRetry_fn_error_retry fn r d k e hf (by simpa [retryable] using h)

lemma withRetry_zero_result (fn : Nat → Except ApiError α) (d k : Nat) :
    withRetry fn 0 d k = (fn k, []) := by
  cases hf : fn k with
  | ok a => exact withRetry_fn_ok fn 0 d k a hf
  | error e =>
    exact withRetry_fn_error_zero fn d k e hf

/- ========================================================================
   C2 — retry behaviour of the call wrapper
   ======================================================================== -/

/-- C2 (counterexample): for a unit of work failing with status 500 on every
attempt, the wrapper performs THREE retries, with delays 1000, 2000 and
4000 ms — four attempts in total — before propagating the final error.  The
claim permits a retry only on an attempt `k` with `k < max` where `max = 3`
(so after attempts 1 and 2 only: two retries, delays 1000 and 2000, three
attempts in total), and requires the error of attempt 3 to be propagated
without a further retry.  The third delay of 4000 ms refutes it. -/
theorem withRetry_retries_thrice_counterexample :
    withRetryCall (fun _ => (Except.error ⟨some 500⟩ : Except ApiError String)) =
      (Except.error ⟨some 500⟩, [1000, 2000, 4000]) ∧
    [1000, 2000, 4000] ≠ [1000, 2000] := ⟨rfl, by decide⟩

/-- C2 (amended): a transient error (status 429 or ≥ 500) on attempt `k`
(1-based) with retry budget remaining — `k ≤ max`, `max = 3`, so up to three
retries and four attempts in total — causes exactly one retry after a delay
of `base * 2^(k-1)` ms with `base = 1000`, doubling on each successive
retry; an error with any other status is propagated immediately with no
retry; when the budget is exhausted the final attempt's outcome (in
particular its error) is propagated unchanged.  The statement fully
characterizes the wrapper: it stops at the first attempt (0-based index
`stopIndex`) whose outcome is a success or a non-transient error, with a
hard cap of `MAX_RETRIES` retries, returns that attempt's outcome unchanged,
and the delays awaited are exactly `1000 * 2^i` for `i < stopIndex`. -/
theorem withRetry_backoff_schedule (fn : Nat → Except ApiError α) :
    withRetryCall fn =
      (fn (stopIndex fn),
       (List.range (stopIndex fn)).map (fun i => INITIAL_BACKOFF * 2 ^ i)) ∧
    stopIndex fn ≤ MAX_RETRIES ∧
    (retryable (fn (stopIndex fn)) = false ∨ stopIndex fn = MAX_RETRIES) := by
  unfold withRetryCall MAX_RETRIES INITIAL_BACKOFF
  by_cases h0 : retryable (fn 0)
  · by_cases h1 : retryable (fn 1)
    · by_cases h2 : retryable (fn 2)
      · have hs : stopIndex fn = 3 := by simp [stopIndex, h0, h1, h2]
        rw [hs, withRetry_retry_of_retryable fn 2 1000 0 h0,
          withRetry_retry_of_retryable fn 1 2000 1 h1,
          withRetry_retry_of_retryable fn 0 4000 2 h2,
          withRetry_zero_result fn 8000 3]
        refine ⟨?_, by omega, Or.inr rfl⟩
        simp [List.range_succ]
      · have hs : stopIndex fn = 2 := by simp [stopIndex, h0, h1, h2]
        rw [hs, withRetry_retry_of_retryable fn 2 1000 0 h0,
          withRetry_retry_of_retryable fn 1 2000 1 h1,
          withRetry_stop_of_not_retryable fn 1 4000 2 (by simpa using h2)]
        refine ⟨?_, by omega, Or.inl (by simpa using h2)⟩
        simp [List.range_succ]
    · have hs : stopIndex fn = 1 := by simp [stopIndex, h0, h1]
      rw [hs, withRetry_retry_of_retryable fn 2 1000 0 h0,
        withRetry_stop_of_not_retryable fn 2 2000 1 (by simpa using h1)]
      refine ⟨?_, by omega, Or.inl (by simpa using h1)⟩
      simp [List.range_succ]
  · have hs : stopIndex fn = 0 := by simp [stopIndex, h0]
    rw [hs, withRetry_stop_of_not_retryable fn 3 1000 0 (by simpa using h0)]
    exact ⟨by simp, by omega, Or.inl (by simpa using h0)⟩

/- ========================================================================
   C6 — idempotence of cleanHtmlOutput
   ======================================================================== -/

lemma stripLeadMarker_of_not_prefix (pat s : List Char) (h : ¬ pat <+: s) :
    stripLeadMarker pat s = s := by
  unfold stripLeadMarker
  rw [if_neg]
  simpa [List.isPrefixOf_iff_prefix] using h

lemma stripTrailMarker_of_not_suffix (s : List Char) (h : ¬ FENCE <:+ s) :
    stripTrailMarker s = s := by
  unfold stripTrailMarker
  rw [if_neg]
  simpa [List.isSuffixOf_iff_suffix] using h

/-- C6 (counterexample): the string consisting of a single bare fence marker
refutes idempotence.  One application strips the leading marker and yields
the empty string; the second application hits the falsy-input branch and
returns the literal failure comment instead. -/
theorem cleanHtmlOutput_not_idempotent :
    cleanHtmlOutput (cleanHtmlOutput ("```".toList)) ≠ cleanHtmlOutput ("```".toList) ∧
    cleanHtmlOutput ("```".toList) = [] ∧
    cleanHtmlOutput [] = FAIL_COMMENT := by
  refine ⟨by decide, by decide, by decide⟩

/-- C6 (amended): a single application of the fenced-code-marker strip can
produce a string that itself again begins or ends with a marker (or is
empty, in which case a second pass returns the failure comment), so the
cleanup is not idempotent in general; it is idempotent on every input whose
once-cleaned form is non-empty and neither begins nor ends with the bare
marker. -/
theorem cleanHtmlOutput_idempotent_of_clean (s : List Char)
    (h1 : cleanHtmlOutput s ≠ [])
    (h2 : ¬ FENCE <+: cleanHtmlOutput s)
    (h3 : ¬ FENCE <:+ cleanHtmlOutput s) :
    cleanHtmlOutput (cleanHtmlOutput s) = cleanHtmlOutput s := by
  have hhtml : ¬ FENCE_HTML <+: cleanHtmlOutput s := by
    intro hcon
    exact h2 (List.IsPrefix.trans (by decide) hcon)
  rw [cleanHtmlOutput, if_neg h1, stripLeadMarker_of_not_prefix _ _ hhtml,
    stripLeadMarker_of_not_prefix _ _ h2, stripTrailMarker_of_not_suffix _ h3]

/-- C6 (witness): the amended idempotence at the concrete input `"x"`. -/
theorem cleanHtmlOutput_idempotent_witness :
    cleanHtmlOutput (cleanHtmlOutput ("x".toList)) = cleanHtmlOutput ("x".toList) :=
  cleanHtmlOutput_idempotent_of_clean ("x".toList) (by decide) (by decide) (by decide)

/- ========================================================================
   C7 — request construction in generate (bringToLife)
   ======================================================================== -/

/-- C7: the instruction text built by `bringToLife` is exactly what the spec
describes: the fixed analysis directive whenever an image payload is present
(so the free-text prompt is immaterial in that case), otherwise the prompt
verbatim, falling back to the generic demo directive when the prompt is
empty; the design-constraint sentence is appended exactly when the style
preset is present (non-empty) and not the sentinel `"Default"`, and the
technical-constraint section — whose text ends with the custom CSS itself —
is appended exactly when the custom CSS is non-empty. -/
theorem bringToLifePrompt_matches_spec :
    (∀ (p : String) (img st css : Option String),
        bringToLifePrompt p img st css = specPrompt p img st css) ∧
    (∀ (p q : String) (img st css : Option String), truthy img = true →
        bringToLifePrompt p img st css = bringToLifePrompt q img st css) ∧
    (∀ c : String, cssConstraint c = "\n\nCUSTOM CSS REQ:\n" ++ c) := by
  refine ⟨?_, ?_, fun c => rfl⟩
  · intro p img st css
    simp only [bringToLifePrompt, specPrompt]
    split_ifs <;> simp_all [String.append_assoc]
  · intro p q img st css himg
    simp [bringToLifePrompt, himg]

/-- C7 (witness): the characterization applied at a concrete invocation
with an image payload, a non-Default style preset and a custom CSS. -/
theorem bringToLifePrompt_matches_spec_witness :
    bringToLifePrompt "dashboard" (some "AAAA") (some "Cyberpunk") (some "body: red") =
      specPrompt "dashboard" (some "AAAA") (some "Cyberpunk") (some "body: red") ∧
    bringToLifePrompt "dashboard" (some "AAAA") none none =
      bringToLifePrompt "other prompt" (some "AAAA") none none :=
  ⟨bringToLifePrompt_matches_spec.1 "dashboard" (some "AAAA") (some "Cyberpunk")
      (some "body: red"),
   bringToLifePrompt_matches_spec.2.1 "dashboard" "other prompt" (some "AAAA") none none
      (by decide)⟩

/- ========================================================================
   C9 — startup load resilience
   ======================================================================== -/

/-- A sample creation used in concrete counterexamples and witnesses. -/
def sampleCreation : Creation :=
  { id := "a1", name := "napkin", html := "<p>hi</p>", originalImage := none,
    timestamp := 5 }

/-- C9 (counterexample): a persisted snapshot that parses to a two-entry
array whose second entry fails to revive (a JSON `null`, whose property
access throws inside the revival `map`).  The claim says the failing entry
is dropped silently while the remaining entry is loaded (`specLoad`), but
`initHistory` wraps the whole parse-and-revive in one `try/catch` and drops
the entire snapshot, loading nothing. -/
theorem initHistory_drops_everything_counterexample :
    initHistory (some (some [some sampleCreation, none])) = [] ∧
    specLoad [some sampleCreation, none] = [sampleCreation] ∧
    initHistory (some (some [some sampleCreation, none])) ≠
      specLoad [some sampleCreation, none] := by
  refine ⟨by decide, by decide, by decide⟩

/-- C9 (amended): deserialization at startup never aborts (every outcome
yields a history, the failure cases yielding the empty one), but dropping is
all-or-nothing rather than per-entry: when the snapshot parses and every
entry revives, all entries are loaded; when parsing fails, or any single
entry fails to revive, the whole snapshot is discarded and the history
starts empty. -/
theorem initHistory_all_or_nothing :
    (∀ items : List (Option Creation), items.all Option.isSome = true →
        initHistory (some (some items)) = specLoad items) ∧
    (∀ items : List (Option Creation), items.all Option.isSome = false →
        initHistory (some (some items)) = []) ∧
    initHistory none = [] ∧
    initHistory (some none) = [] := by
  refine ⟨?_, ?_, rfl, rfl⟩
  · intro items h
    simp [initHistory, specLoad, h]
  · intro items h
    simp [initHistory, h]

/-- C9 (witness): the amended load behaviour at concrete snapshots. -/
theorem initHistory_all_or_nothing_witness :
    initHistory (some (some [some sampleCreation])) = specLoad [some sampleCreation] ∧
    initHistory (some (some [none, some sampleCreation])) = [] :=
  ⟨initHistory_all_or_nothing.1 [some sampleCreation] (by decide),
   initHistory_all_or_nothing.2.1 [none, some sampleCreation] (by decide)⟩

/- ========================================================================
   C10 — atomicity of a failed refinement
   ======================================================================== -/

/-- C10: if the refinement call throws (`refineApp` rejects with an error),
the whole app state — active creation's body, history list, undo stack and
redo stack — is left unchanged: the undo push, the redo clear and the body
update all sit after the `await` and are skipped by the `catch` path. -/
theorem refine_failure_is_atomic (s : AppState) (e : ApiError) :
    refineStep (Except.error e) s = s := by
  have h : handleRefine (Except.error e) s = s := by
    unfold handleRefine
    cases s.activeCreation <;> rfl
  simp [refineStep, step, h, runActivationEffect]

/- ========================================================================
   C8 — inspect-mode click filtering
   ======================================================================== -/

/-- The rendered document's `<body>` element, as a concrete click target. -/
def sampleBodyElement : DomElement :=
  { tagName := "BODY", elemId := "", className := "", innerText := "hello world",
    isBody := true, isRoot := false,
    color := "rgb(0, 0, 0)", backgroundColor := "rgb(255, 255, 255)",
    fontSize := "16px", fontFamily := "serif", padding := "0px", margin := "8px" }

/-- C8 (counterexample): in Inspect mode a click on the document body itself
*does* produce an `InspectedElementReport` — `handleClick` has no
body/root-element guard (only the hover handler has one), so the claim's
"produces no report (it is ignored)" is false.  Moreover the report's
computed-style set has only the six properties color, background, font
size/family, padding and margin — font weight, border radius, border,
display and position are absent. -/
theorem inspect_body_click_counterexample :
    sampleBodyElement.isBody = true ∧
    inspectReportOf InteractionMode.inspect sampleBodyElement ≠ none ∧
    (inspectReport sampleBodyElement).computedStyles.map Prod.fst =
      ["color", "backgroundColor", "fontSize", "fontFamily", "padding", "margin"] := by
  refine ⟨rfl, by decide, by decide⟩

/-- C8 (amended): in Inspect mode a click on *any* element of the rendered
document — including the body or root element — suppresses the native action
and produces an `InspectedElementReport` carrying the element's lower-cased
tag name, identifier, hover-marker-stripped class list, text truncated to 50
characters, and the computed styles for exactly the six properties color,
background, font size, font family, padding and margin; in Interact mode the
click passes through untouched; only the hover highlighting ignores the body
and root element. -/
theorem inspect_click_always_reports (el : DomElement) :
    inspectReportOf InteractionMode.inspect el = some (inspectReport el) ∧
    (inspectReport el).tagName = el.tagName.toLower ∧
    (inspectReport el).elemId = el.elemId ∧
    (inspectReport el).text = jsSubstringTo 50 el.innerText ∧
    (inspectReport el).computedStyles.map Prod.fst =
      ["color", "backgroundColor", "fontSize", "fontFamily", "padding", "margin"] ∧
    suppressesNative InteractionMode.inspect = true ∧
    (∀ left top cx cy : Int,
        handleClick InteractionMode.interact el left top cx cy =
          ClickOutcome.passthrough) ∧
    (el.isBody = true ∨ el.isRoot = true →
        handleMouseOver InteractionMode.inspect el = none) := by
  refine ⟨rfl, rfl, rfl, rfl, rfl, rfl, fun _ _ _ _ => rfl, ?_⟩
  intro h
  unfold handleMouseOver
  rcases h with h | h <;> simp [h]

/-- C8 (witness): the amended behaviour at the concrete body element. -/
theorem inspect_click_always_reports_witness :
    inspectReportOf InteractionMode.inspect sampleBodyElement =
      some (inspectReport sampleBodyElement) ∧
    handleMouseOver InteractionMode.inspect sampleBodyElement = none :=
  ⟨(inspect_click_always_reports sampleBodyElement).1,
   (inspect_click_always_reports sampleBodyElement).2.2.2.2.2.2.2 (Or.inl rfl)⟩

/- ========================================================================
   C5 — stack-clearing invariant on activation
   ======================================================================== -/

lemma runActivationEffect_activeId (prev next : AppState) :
    activeId (runActivationEffect prev next) = activeId next := by
  unfold runActivationEffect
  split <;> rfl

lemma runActivationEffect_clears (prev next : AppState)
    (h : activeId next ≠ activeId prev) :
    (runActivationEffect prev next).undoStack = [] ∧
    (runActivationEffect prev next).redoStack = [] := by
  unfold runActivationEffect
  rw [if_neg h]
  exact ⟨rfl, rfl⟩

/-- C5: every state transition that changes the active artifact's id —
whatever handler causes it, in particular activating a history entry and
importing a snapshot — leaves both the undo stack and the redo stack empty,
regardless of their prior contents, because the `useEffect` keyed on
`activeCreation?.id` clears them after the render. -/
theorem switching_artifact_clears_stacks :
    (∀ (h : AppState → AppState) (s : AppState),
        activeId (step h s) ≠ activeId s →
        (step h s).undoStack = [] ∧ (step h s).redoStack = []) ∧
    (∀ (c : Creation) (s : AppState),
        some c.id ≠ activeId s →
        (selectCreationStep c s).undoStack = [] ∧
        (selectCreationStep c s).redoStack = []) ∧
    (∀ (p : Option SnapshotJson) (freshId : String) (now : Nat) (s s' : AppState)
        (msg : Option String),
        handleImportFile p freshId now s = (s', msg) →
        activeId s' ≠ activeId s →
        s'.undoStack = [] ∧ s'.redoStack = []) := by
  have hstep : ∀ (h : AppState → AppState) (s : AppState),
      activeId (step h s) ≠ activeId s →
      (step h s).undoStack = [] ∧ (step h s).redoStack = [] := by
    intro h s hne
    rw [step] at hne ⊢
    rw [runActivationEffect_activeId] at hne
    exact runActivationEffect_clears s (h s) hne
  refine ⟨hstep, ?_, ?_⟩
  · intro c s hne
    apply hstep
    rw [step, runActivationEffect_activeId]
    simpa [activeId] using hne
  · intro p freshId now s s' msg himp hne
    match p with
    | none =>
      simp only [handleImportFile] at himp
      injection himp with h1 h2
      rw [← h1] at hne
      exact absurd rfl hne
    | some pj =>
      simp only [handleImportFile] at himp
      by_cases hval : (truthy pj.html && truthy pj.name) = true
      · rw [if_pos hval] at himp
        injection himp with h1 h2
        rw [← h1] at hne ⊢
        rw [runActivationEffect_activeId] at hne
        exact runActivationEffect_clears _ _ hne
      · rw [if_neg hval] at himp
        injection himp with h1 h2
        rw [← h1] at hne
        exact absurd rfl hne

/-- C5 (witness): activating a history entry with a different id from a
state whose stacks are non-empty leaves both stacks empty. -/
theorem switching_artifact_clears_stacks_witness :
    (selectCreationStep sampleCreation
        { activeCreation := some { sampleCreation with id := "zz" },
          history := [sampleCreation], undoStack := ["<a>"],
          redoStack := ["<b>"] }).undoStack = [] ∧
    (selectCreationStep sampleCreation
        { activeCreation := some { sampleCreation with id := "zz" },
          history := [sampleCreation], undoStack := ["<a>"],
          redoStack := ["<b>"] }).redoStack = [] :=
  switching_artifact_clears_stacks.2.1 sampleCreation
    { activeCreation := some { sampleCreation with id := "zz" },
      history := [sampleCreation], undoStack := ["<a>"], redoStack := ["<b>"] }
    (by decide)

/- ========================================================================
   C4 — export/import round-trip
   ======================================================================== -/

lemma runActivationEffect_activeCreation (prev next : AppState) :
    (runActivationEffect prev next).activeCreation = next.activeCreation := by
  unfold runActivationEffect
  split <;> rfl

/-- C4: re-importing a full exported snapshot of an artifact succeeds
without an error message and activates an artifact with identical body
(`html`) and `name`, and with the same `id` (exported snapshots always carry
one); a snapshot lacking an id (or with a falsy one) gets the freshly
generated id instead; unparseable input is rejected with a descriptive
failure and leaves the state untouched, as is input lacking `html` or
`name`.  The non-emptiness hypotheses reflect JS truthiness: every artifact
created by the app has a non-empty body, name and id. -/
theorem export_import_round_trip :
    (∀ (c : Creation) (freshId : String) (now : Nat) (s : AppState),
        c.html ≠ "" → c.name ≠ "" → c.id ≠ "" →
        ∃ c' : Creation,
          (handleImportFile (some (exportJson c)) freshId now s).1.activeCreation =
            some c' ∧
          (handleImportFile (some (exportJson c)) freshId now s).2 = none ∧
          c'.html = c.html ∧ c'.name = c.name ∧ c'.id = c.id) ∧
    (∀ (p : SnapshotJson) (freshId : String) (now : Nat) (s : AppState),
        truthy p.id = false → truthy p.html = true → truthy p.name = true →
        ∃ c' : Creation,
          (handleImportFile (some p) freshId now s).1.activeCreation = some c' ∧
          c'.id = freshId) ∧
    (∀ (freshId : String) (now : Nat) (s : AppState),
        handleImportFile none freshId now s =
          (s, some "Failed to import creation. The file might be corrupted.")) ∧
    (∀ (p : SnapshotJson) (freshId : String) (now : Nat) (s : AppState),
        (truthy p.html && truthy p.name) = false →
        handleImportFile (some p) freshId now s =
          (s, some "Invalid creation file format.")) := by
  refine ⟨?_, ?_, fun _ _ _ => rfl, ?_⟩
  · intro c freshId now s hh hn hid
    refine ⟨{ id := c.id, name := c.name, html := c.html,
              originalImage := c.originalImage,
              timestamp := if c.timestamp = 0 then now else c.timestamp },
            ?_, ?_, rfl, rfl, rfl⟩
    · simp [handleImportFile, exportJson, truthy, hh, hn, hid,
        runActivationEffect_activeCreation]
    · simp [handleImportFile, exportJson, truthy, hh, hn]
  · intro p freshId now s hpid hh hn
    refine ⟨{ id := freshId, name := p.name.getD "", html := p.html.getD "",
              originalImage := p.originalImage,
              timestamp := match p.timestamp with
                           | some t => if t = 0 then now else t
                           | none => now },
            ?_, rfl⟩
    simp [handleImportFile, hh, hn, hpid, runActivationEffect_activeCreation]
  · intro p freshId now s hval
    simp [handleImportFile, hval]

/-- The empty app state used in concrete witnesses. -/
def emptyAppState : AppState :=
  { activeCreation := none, history := [], undoStack := [], redoStack := [] }

/-- A snapshot lacking the `html` field, used in concrete witnesses. -/
def htmlLessSnapshot : SnapshotJson :=
  { id := none, name := some "n", html := none, originalImage := none,
    timestamp := none }

/-- C4 (witness): the round trip and the rejection paths at concrete
inputs. -/
theorem export_import_round_trip_witness :
    (∃ c' : Creation,
        (handleImportFile (some (exportJson sampleCreation)) "fresh-id" 7
            emptyAppState).1.activeCreation = some c' ∧
        (handleImportFile (some (exportJson sampleCreation)) "fresh-id" 7
            emptyAppState).2 = none ∧
        c'.html = sampleCreation.html ∧ c'.name = sampleCreation.name ∧
        c'.id = sampleCreation.id) ∧
    handleImportFile (some htmlLessSnapshot) "fresh-id" 7 emptyAppState =
      (emptyAppState, some "Invalid creation file format.") :=
  ⟨export_import_round_trip.1 sampleCreation "fresh-id" 7 emptyAppState
      (by decide) (by decide) (by decide),
   export_import_round_trip.2.2.2 htmlLessSnapshot "fresh-id" 7 emptyAppState
      (by decide)⟩

/- ========================================================================
   C3 — persistence eviction
   ======================================================================== -/

lemma persistHistory_of_fits (fits : List Creation → Bool) (l : List Creation)
    (h : fits l = true) : persistHistory fits l = (some l, [], false) := by
  unfold persistHistory
  rw [if_pos h]

lemma persistHistory_single_fail (fits : List Creation → Bool) (l : List Creation)
    (hf : fits l = false) (hlen : ¬ l.length > 1) :
    persistHistory fits l = (none, [], true) := by
  unfold persistHistory
  rw [if_neg (by simp [hf]), dif_neg hlen]

lemma persistHistory_evict_step (fits : List Creation → Bool) (l : List Creation)
    (hf : fits l = false) (hlen : l.length > 1) :
    persistHistory fits l =
      ((persistHistory fits l.dropLast).1,
       (persistHistory fits l.dropLast).2.1 ++ [l.dropLast],
       (persistHistory fits l.dropLast).2.2) := by
  conv_lhs => unfold persistHistory
  rw [if_neg (by simp [hf]), dif_pos hlen]

lemma persistHistory_spec (fits : List Creation → Bool) (l : List Creation) :
    (∀ q, (persistHistory fits l).1 = some q →
        fits q = true ∧ q = l.take q.length ∧
        (q = l ∨ (1 ≤ q.length ∧ q.length < l.length))) ∧
    (l ≠ [] →
      ((persistHistory fits l).2.2 = true ↔
        ∀ k, 1 ≤ k → k ≤ l.length → fits (l.take k) = false)) ∧
    ((persistHistory fits l).1 = none ↔ (persistHistory fits l).2.2 = true) ∧
    (∀ m ∈ (persistHistory fits l).2.1, m = l.take m.length ∧ m.length < l.length) := by
  induction l using List.reverseRecOn with
  | nil =>
    by_cases hf : fits [] = true
    · rw [persistHistory_of_fits fits [] hf]
      refine ⟨?_, by simp, by simp, by simp⟩
      intro q hq
      injection hq with hq
      subst hq
      exact ⟨hf, rfl, Or.inl rfl⟩
    · rw [persistHistory_single_fail fits [] (by simpa using hf) (by simp)]
      exact ⟨by simp, by simp, by simp, by simp⟩
  | append_singleton l' a ih =>
    by_cases hf : fits (l' ++ [a]) = true
    · rw [persistHistory_of_fits fits (l' ++ [a]) hf]
      refine ⟨?_, ?_, by simp, by simp⟩
      · intro q hq
        injection hq with hq
        subst hq
        exact ⟨hf, by simp, Or.inl rfl⟩
      · intro _
        constructor
        · intro hcon
          simp at hcon
        · intro hall
          have := hall (l' ++ [a]).length (by simp) le_rfl
          rw [List.take_length, hf] at this
          exact absurd this (by decide)
    · have hf' : fits (l' ++ [a]) = false := by simpa using hf
      rcases eq_or_ne l' [] with hnil | hne
      · subst hnil
        rw [persistHistory_single_fail fits ([] ++ [a]) hf' (by simp)]
        refine ⟨by simp, ?_, by simp, by simp⟩
        intro _
        simp only [true_iff]
        intro k h1 h2
        simp only [List.nil_append, List.length_cons, List.length_nil] at h2
        have hk : k = 1 := le_antisymm h2 h1
        subst hk
        simpa using hf'
      · have hlen : (l' ++ [a]).length > 1 := by
          have : 1 ≤ l'.length := List.length_pos.mpr hne
          simp only [List.length_append, List.length_cons, List.length_nil]
          omega
        rw [persistHistory_evict_step fits (l' ++ [a]) hf' hlen]
        rw [List.dropLast_concat] at *
        obtain ⟨ih1, ih2, ih3, ih4⟩ := ih
        have htake : ∀ n, n ≤ l'.length → (l' ++ [a]).take n = l'.take n :=
          fun n hn => List.take_append_of_le_length hn
        refine ⟨?_, ?_, ih3, ?_⟩
        · intro q hq
          obtain ⟨hq1, hq2, hq3⟩ := ih1 q hq
          have hql : q.length ≤ l'.length := by
            have := congrArg List.length hq2
            rw [List.length_take] at this
            omega
          refine ⟨hq1, by rw [htake q.length hql]; exact hq2, Or.inr ?_⟩
          rcases hq3 with h | h
          · subst h
            constructor
            · exact List.length_pos.mpr hne
            · simp
          · refine ⟨h.1, ?_⟩
            have := h.2
            simp only [List.length_append, List.length_cons, List.length_nil]
            omega
        · intro _
          rw [ih2 hne]
          constructor
          · intro hall k h1 h2
            simp only [List.length_append, List.length_cons, List.length_nil] at h2
            rcases lt_or_eq_of_le h2 with hlt | heq
            · have hk : k ≤ l'.length := by omega
              rw [htake k hk]
              exact hall k h1 hk
            · have hk : k = (l' ++ [a]).length := by
                simp only [List.length_append, List.length_cons, List.length_nil]
                omega
              rw [hk, List.take_length]
              exact hf'
          · intro hall k h1 h2
            have hk2 : k ≤ (l' ++ [a]).length := by
              simp only [List.length_append, List.length_cons, List.length_nil]
              omega
            have := hall k h1 hk2
            rwa [htake k h2] at this
        · intro m hm
          rw [List.mem_append] at hm
          rcases hm with hm | hm
          · obtain ⟨hm1, hm2⟩ := ih4 m hm
            have hml : m.length ≤ l'.length := le_of_lt hm2
            refine ⟨by rw [htake m.length hml]; exact hm1, ?_⟩
            simp only [List.length_append, List.length_cons, List.length_nil]
            omega
          · rw [List.mem_singleton] at hm
            refine ⟨?_, ?_⟩
            · rw [hm, htake l'.length le_rfl, List.take_length]
            · rw [hm]
              simp

/-- C3: when serializing the full most-recent-first history fails (a quota
error), `persistHistory` only ever stores a strictly smaller non-empty
prefix of the list — obtained by repeatedly dropping the oldest (last)
entry — that does fit; the user-visible storage-full alert is raised only
when even the single newest entry cannot be stored (and exactly when nothing
was stored at all); and every in-memory `setHistory` update made along the
way is itself such a strict prefix, so the list is never corrupted beyond
the evictions applied. -/
theorem persist_eviction_claim (fits : List Creation → Bool) (l : List Creation)
    (hne : l ≠ []) (hfail : fits l = false) :
    (∀ q, (persistHistory fits l).1 = some q →
        fits q = true ∧ q = l.take q.length ∧ 1 ≤ q.length ∧ q.length < l.length) ∧
    ((persistHistory fits l).2.2 = true → fits (l.take 1) = false) ∧
    ((persistHistory fits l).1 = none ↔ (persistHistory fits l).2.2 = true) ∧
    (∀ m ∈ (persistHistory fits l).2.1,
        m = l.take m.length ∧ m.length < l.length) := by
  obtain ⟨h1, h2, h3, h4⟩ := persistHistory_spec fits l
  refine ⟨?_, ?_, h3, h4⟩
  · intro q hq
    obtain ⟨hq1, hq2, hq3⟩ := h1 q hq
    rcases hq3 with h | h
    · subst h
      rw [hq1] at hfail
      exact absurd hfail (by decide)
    · exact ⟨hq1, hq2, h.1, h.2⟩
  · intro halert
    exact (h2 hne).mp halert 1 le_rfl (Nat.one_le_iff_ne_zero.mpr
      (by simpa [List.length_eq_zero] using hne))

/-- A capacity test under which only a single entry fits. -/
def fitsOne : List Creation → Bool := fun t => t.length ≤ 1

/-- A two-entry history used in concrete witnesses. -/
def twoHistory : List Creation :=
  [sampleCreation, { sampleCreation with id := "b2" }]

/-- C3 (witness): with a capacity of one entry, persisting a two-entry
history stores exactly the one-entry prefix, and the stored-nothing/alert
equivalence holds at this input. -/
theorem persist_eviction_claim_witness :
    (persistHistory fitsOne twoHistory).1 = some (twoHistory.take 1) ∧
    ((persistHistory fitsOne twoHistory).1 = none ↔
      (persistHistory fitsOne twoHistory).2.2 = true) :=
  ⟨by simp [persistHistory, fitsOne, twoHistory],
   (persist_eviction_claim fitsOne twoHistory (by decide) (by decide)).2.2.1⟩

/- ========================================================================
   C1 — undo/redo law
   ======================================================================== -/

lemma updateActiveCreationHtml_stacks (h : String) (s : AppState) :
    (updateActiveCreationHtml h s).undoStack = s.undoStack ∧
    (updateActiveCreationHtml h s).redoStack = s.redoStack := by
  unfold updateActiveCreationHtml
  cases s.activeCreation <;> exact ⟨rfl, rfl⟩

lemma updateActiveCreationHtml_active (h : String) (s : AppState) (ac : Creation)
    (hac : s.activeCreation = some ac) :
    (updateActiveCreationHtml h s).activeCreation = some { ac with html := h } := by
  unfold updateActiveCreationHtml
  rw [hac]

lemma activeId_handleRefine (o : Except ApiError String) (s : AppState) :
    activeId (handleRefine o s) = activeId s := by
  cases hac : s.activeCreation with
  | none => simp [handleRefine, hac]
  | some ac =>
    cases o with
    | error e => simp [handleRefine, hac]
    | ok b =>
      by_cases hb : b = ""
      · simp [handleRefine, hac, hb]
      · simp [handleRefine, hac, hb, activeId, updateActiveCreationHtml]

lemma activeId_handleUndo (s : AppState) : activeId (handleUndo s) = activeId s := by
  cases hac : s.activeCreation with
  | none => simp [handleUndo, hac]
  | some ac =>
    cases hg : s.undoStack.getLast? with
    | none => simp [handleUndo, hac, hg]
    | some prev => simp [handleUndo, hac, hg, activeId, updateActiveCreationHtml]

lemma activeId_handleRedo (s : AppState) : activeId (handleRedo s) = activeId s := by
  cases hac : s.activeCreation with
  | none => simp [handleRedo, hac]
  | some ac =>
    cases hg : s.redoStack.getLast? with
    | none => simp [handleRedo, hac, hg]
    | some nxt => simp [handleRedo, hac, hg, activeId, updateActiveCreationHtml]

lemma refineStep_eq_handleRefine (o : Except ApiError String) :
    refineStep o = handleRefine o :=
  funext fun s => by
    rw [refineStep, step, runActivationEffect, if_pos (activeId_handleRefine o s)]

lemma undoStep_eq_handleUndo : undoStep = handleUndo :=
  funext fun s => by
    rw [undoStep, step, runActivationEffect, if_pos (activeId_handleUndo s)]

lemma redoStep_eq_handleRedo : redoStep = handleRedo :=
  funext fun s => by
    rw [redoStep, step, runActivationEffect, if_pos (activeId_handleRedo s)]

lemma handleRefine_ok_fields (s : AppState) (ac : Creation) (b : String)
    (hac : s.activeCreation = some ac) (hb : b ≠ "") :
    (handleRefine (Except.ok b) s).activeCreation = some { ac with html := b } ∧
    (handleRefine (Except.ok b) s).undoStack = s.undoStack ++ [ac.html] ∧
    (handleRefine (Except.ok b) s).redoStack = [] := by
  simp only [handleRefine, hac, if_neg hb]
  refine ⟨updateActiveCreationHtml_active b _ ac rfl, ?_, ?_⟩
  · rw [(updateActiveCreationHtml_stacks b _).1]
  · rw [(updateActiveCreationHtml_stacks b _).2]

lemma handleUndo_noop (s : AppState)
    (h : s.undoStack = [] ∨ s.activeCreation = none) : handleUndo s = s := by
  rcases h with h | h
  · cases hac : s.activeCreation with
    | none => simp [handleUndo, hac]
    | some ac => simp [handleUndo, hac, h]
  · simp [handleUndo, h]

lemma handleRedo_noop (s : AppState)
    (h : s.redoStack = [] ∨ s.activeCreation = none) : handleRedo s = s := by
  rcases h with h | h
  · cases hac : s.activeCreation with
    | none => simp [handleRedo, hac]
    | some ac => simp [handleRedo, hac, h]
  · simp [handleRedo, h]

lemma handleUndo_fields (s : AppState) (ac : Creation) (base : List String) (a : String)
    (hac : s.activeCreation = some ac) (hu : s.undoStack = base ++ [a]) :
    (handleUndo s).activeCreation = some { ac with html := a } ∧
    (handleUndo s).undoStack = base ∧
    (handleUndo s).redoStack = s.redoStack ++ [ac.html] := by
  simp only [handleUndo, hac, hu, List.getLast?_concat]
  refine ⟨updateActiveCreationHtml_active a _ ac rfl, ?_, ?_⟩
  · rw [(updateActiveCreationHtml_stacks a _).1]
    exact List.dropLast_concat
  · rw [(updateActiveCreationHtml_stacks a _).2]

lemma handleRedo_fields (s : AppState) (ac : Creation) (base : List String) (a : String)
    (hac : s.activeCreation = some ac) (hr : s.redoStack = base ++ [a]) :
    (handleRedo s).activeCreation = some { ac with html := a } ∧
    (handleRedo s).redoStack = base ∧
    (handleRedo s).undoStack = s.undoStack ++ [ac.html] := by
  simp only [handleRedo, hac, hr, List.getLast?_concat]
  refine ⟨updateActiveCreationHtml_active a _ ac rfl, ?_, ?_⟩
  · rw [(updateActiveCreationHtml_stacks a _).2]
    exact List.dropLast_concat
  · rw [(updateActiveCreationHtml_stacks a _).1]

lemma undo_iter (pre : List String) :
    ∀ (s : AppState) (ac : Creation) (base rstk : List String),
      s.activeCreation = some ac → s.undoStack = base ++ pre → s.redoStack = rstk →
      (handleUndo^[pre.length] s).activeCreation =
          some { ac with html := (pre ++ [ac.html]).headD "" } ∧
      (handleUndo^[pre.length] s).undoStack = base ∧
      (handleUndo^[pre.length] s).redoStack =
          rstk ++ ((pre ++ [ac.html]).drop 1).reverse := by
  induction pre using List.reverseRecOn with
  | nil =>
    intro s ac base rstk hac hu hr
    simp only [List.length_nil, Function.iterate_zero, id]
    refine ⟨hac, by simpa using hu, by simpa using hr⟩
  | append_singleton pre' a ih =>
    intro s ac base rstk hac hu hr
    have hlen : (pre' ++ [a]).length = pre'.length + 1 := by simp
    rw [hlen, Function.iterate_succ_apply]
    have hu' : s.undoStack = (base ++ pre') ++ [a] := by
      rw [hu, List.append_assoc]
    obtain ⟨f1, f2, f3⟩ := handleUndo_fields s ac (base ++ pre') a hac hu'
    obtain ⟨g1, g2, g3⟩ := ih (handleUndo s) { ac with html := a } base
      (rstk ++ [ac.html]) f1 f2 (by rw [f3, hr])
    have hhead : ((pre' ++ [a]) ++ [ac.html]).headD "" = (pre' ++ [a]).headD "" := by
      cases pre' <;> simp
    have hone : (1 : Nat) ≤ (pre' ++ [a]).length := by simp
    refine ⟨?_, g2, ?_⟩
    · rw [hhead]
      exact g1
    · rw [g3, List.drop_append_of_le_length hone, List.reverse_append]
      simp [List.append_assoc]

lemma redo_iter (post : List String) :
    ∀ (s : AppState) (ac : Creation) (base ustk : List String),
      s.activeCreation = some ac → s.redoStack = base ++ post → s.undoStack = ustk →
      (handleRedo^[post.length] s).activeCreation =
          some { ac with html := (post ++ [ac.html]).headD "" } ∧
      (handleRedo^[post.length] s).redoStack = base ∧
      (handleRedo^[post.length] s).undoStack =
          ustk ++ ((post ++ [ac.html]).drop 1).reverse := by
  induction post using List.reverseRecOn with
  | nil =>
    intro s ac base ustk hac hr hu
    simp only [List.length_nil, Function.iterate_zero, id]
    refine ⟨hac, by simpa using hr, by simpa using hu⟩
  | append_singleton post' a ih =>
    intro s ac base ustk hac hr hu
    have hlen : (post' ++ [a]).length = post'.length + 1 := by simp
    rw [hlen, Function.iterate_succ_apply]
    have hr' : s.redoStack = (base ++ post') ++ [a] := by
      rw [hr, List.append_assoc]
    obtain ⟨f1, f2, f3⟩ := handleRedo_fields s ac (base ++ post') a hac hr'
    obtain ⟨g1, g2, g3⟩ := ih (handleRedo s) { ac with html := a } base
      (ustk ++ [ac.html]) f1 f2 (by rw [f3, hu])
    have hhead : ((post' ++ [a]) ++ [ac.html]).headD "" = (post' ++ [a]).headD "" := by
      cases post' <;> simp
    have hone : (1 : Nat) ≤ (post' ++ [a]).length := by simp
    refine ⟨?_, g2, ?_⟩
    · rw [hhead]
      exact g1
    · rw [g3, List.drop_append_of_le_length hone, List.reverse_append]
      simp [List.append_assoc]

lemma chain_dropLast_getLastD :
    ∀ (bs : List String) (c : String),
      (c :: bs).dropLast ++ [bs.getLastD c] = c :: bs := by
  intro bs
  induction bs with
  | nil => intro c; simp
  | cons x xs ih =>
    intro c
    rw [List.dropLast_cons₂, List.getLastD_cons]
    rw [List.cons_append, ih x]

lemma refineSeq_fields (bodies : List String) :
    ∀ (s : AppState) (ac : Creation),
      s.activeCreation = some ac → (∀ b ∈ bodies, b ≠ "") →
      (refineSeq bodies s).activeCreation =
          some { ac with html := bodies.getLastD ac.html } ∧
      (refineSeq bodies s).undoStack =
          s.undoStack ++ (ac.html :: bodies).dropLast ∧
      (refineSeq bodies s).redoStack =
          (if bodies = [] then s.redoStack else []) := by
  induction bodies with
  | nil =>
    intro s ac hac _
    exact ⟨hac, by simp [refineSeq], by simp [refineSeq]⟩
  | cons b rest ih =>
    intro s ac hac hb
    have hb0 : b ≠ "" := hb b (List.mem_cons_self b rest)
    have hbr : ∀ x ∈ rest, x ≠ "" := fun x hx => hb x (List.mem_cons_of_mem b hx)
    have hstep : refineSeq (b :: rest) s =
        refineSeq rest (refineStep (Except.ok b) s) := rfl
    rw [hstep, refineStep_eq_handleRefine]
    obtain ⟨f1, f2, f3⟩ := handleRefine_ok_fields s ac b hac hb0
    obtain ⟨g1, g2, g3⟩ := ih (handleRefine (Except.ok b) s) { ac with html := b } f1 hbr
    refine ⟨?_, ?_, ?_⟩
    · rw [List.getLastD_cons]
      exact g1
    · rw [g2, f2, List.dropLast_cons₂, List.append_assoc]
      rfl
    · cases rest with
      | nil =>
        rw [if_neg (by simp)]
        rw [if_pos rfl] at g3
        rw [g3, f3]
      | cons x xs =>
        rw [if_neg (by simp)]
        rw [if_neg (by simp)] at g3
        exact g3

lemma reverse_concat_headD (l : List String) (c : String) :
    (l.reverse ++ [c]).headD "" = l.getLastD c := by
  rw [List.headD_eq_head?, List.head?_append, List.head?_reverse,
    List.getLastD_eq_getLast?]
  cases l.getLast? <;> simp

/-- C1: starting from a state with an active artifact of body `B0`, any
sequence of `n` successful refinements through bodies `B1, ..., Bn` (all
non-empty — a falsy result is not applied) followed by `n` undos restores
the body to `B0`, and `n` further redos restore it to `Bn`; every successful
refinement pushes the pre-refinement body onto the undo stack and clears the
redo stack, so a redo immediately after a refinement is a no-op; and undo
and redo are no-ops whenever their stack is empty or no artifact is
active. -/
theorem undo_redo_law (s : AppState) (ac : Creation) (bodies : List String)
    (hac : s.activeCreation = some ac) (hb : ∀ b ∈ bodies, b ≠ "") :
    activeHtml (undoStep^[bodies.length] (refineSeq bodies s)) = some ac.html ∧
    activeHtml (redoStep^[bodies.length]
        (undoStep^[bodies.length] (refineSeq bodies s))) =
      some (bodies.getLastD ac.html) ∧
    (∀ b : String, b ≠ "" →
        (refineStep (Except.ok b) s).undoStack = s.undoStack ++ [ac.html] ∧
        (refineStep (Except.ok b) s).redoStack = [] ∧
        redoStep (refineStep (Except.ok b) s) = refineStep (Except.ok b) s) ∧
    (∀ t : AppState, t.undoStack = [] ∨ t.activeCreation = none →
        undoStep t = t) ∧
    (∀ t : AppState, t.redoStack = [] ∨ t.activeCreation = none →
        redoStep t = t) := by
  rw [undoStep_eq_handleUndo, redoStep_eq_handleRedo]
  obtain ⟨R1, R2, R3⟩ := refineSeq_fields bodies s ac hac hb
  have hlen : (ac.html :: bodies).dropLast.length = bodies.length := by simp
  obtain ⟨U1, U2, U3⟩ := undo_iter ((ac.html :: bodies).dropLast)
    (refineSeq bodies s) { ac with html := bodies.getLastD ac.html }
    s.undoStack (refineSeq bodies s).redoStack R1 R2 rfl
  rw [hlen] at U1 U2 U3
  have hchain : (ac.html :: bodies).dropLast ++
      [({ ac with html := bodies.getLastD ac.html } : Creation).html] =
      ac.html :: bodies := chain_dropLast_getLastD bodies ac.html
  rw [hchain] at U1 U3
  rw [List.headD_cons] at U1
  have heta : ({ { ac with html := bodies.getLastD ac.html } with
      html := ac.html } : Creation) = ac := rfl
  rw [heta] at U1
  have hdrop : (ac.html :: bodies).drop 1 = bodies := rfl
  rw [hdrop] at U3
  refine ⟨?_, ?_, ?_, fun t ht => handleUndo_noop t ht,
    fun t ht => handleRedo_noop t ht⟩
  · rw [activeHtml, U1]
    rfl
  · by_cases hne : bodies = []
    · subst hne
      simp only [List.length_nil, Function.iterate_zero, id]
      rw [activeHtml, R1]
      rfl
    · rw [if_neg hne] at R3
      have hredo : (handleUndo^[bodies.length] (refineSeq bodies s)).redoStack =
          [] ++ bodies.reverse := by
        rw [U3, R3]
      obtain ⟨V1, V2, V3⟩ := redo_iter bodies.reverse
        (handleUndo^[bodies.length] (refineSeq bodies s)) ac [] s.undoStack
        U1 hredo U2
      rw [List.length_reverse] at V1
      rw [activeHtml, V1, reverse_concat_headD]
      rfl
  · intro b hb0
    rw [refineStep_eq_handleRefine]
    obtain ⟨p1, p2, p3⟩ := handleRefine_ok_fields s ac b hac hb0
    exact ⟨p2, p3, handleRedo_noop _ (Or.inl p3)⟩

/-- A concrete starting state with an active creation and empty stacks. -/
def sampleState : AppState :=
  { activeCreation := some sampleCreation, history := [sampleCreation],
    undoStack := [], redoStack := [] }

/-- C1 (witness): two successful refinements followed by two undos restore
the original body, and two redos restore the last refined body. -/
theorem undo_redo_law_witness :
    activeHtml (undoStep^[2] (refineSeq ["<b>b</b>", "<c>c</c>"] sampleState)) =
      some sampleCreation.html ∧
    activeHtml (redoStep^[2]
        (undoStep^[2] (refineSeq ["<b>b</b>", "<c>c</c>"] sampleState))) =
      some "<c>c</c>" := by
  have h := undo_redo_law sampleState sampleCreation ["<b>b</b>", "<c>c</c>"]
    rfl (by decide)
  exact ⟨h.1, h.2.1⟩
